import Mathlib

/-!
Verification of the Wage-ETL pipeline: a shallow embedding of the
transform normalizers, record validation, currency cleaning, the scraper
table extraction, the HTTP retry classification and the response cache,
with theorems settling the specification claims against the code.
-/

namespace WageETL

/-! ## Python string primitives, modelled over `List Char` -/

/-- Python whitespace for `str.split()` / `str.strip()` (the characters
occurring in the data of this pipeline). -/
def isPyWs (c : Char) : Bool :=
  c = ' ' || c = '\t' || c = '\n' || c = '\r'

/-- `str.strip()`: drop whitespace from both ends. -/
def stripList (l : List Char) : List Char :=
  ((l.dropWhile isPyWs).reverse.dropWhile isPyWs).reverse

/-- `str.split()` with no argument: split on whitespace runs, dropping
empty pieces.  `wordsAux` carries the (reversed) current word. -/
def wordsAux : List Char → List Char → List (List Char)
  | [], acc => if acc.isEmpty then [] else [acc.reverse]
  | c :: rest, acc =>
    if isPyWs c then
      if acc.isEmpty then wordsAux rest [] else acc.reverse :: wordsAux rest []
    else wordsAux rest (c :: acc)

def words (l : List Char) : List (List Char) := wordsAux l []

/-- `" ".join(ws)`. -/
def joinSpace : List (List Char) → List Char
  | [] => []
  | [w] => w
  | w :: ws => w ++ ' ' :: joinSpace ws

/-- `" ".join(s.split())`: collapse whitespace runs to single spaces. -/
def collapseWs (l : List Char) : List Char := joinSpace (words l)

/-- Worker for `replaceList`: `skip > 0` means the current character is
still covered by the pattern occurrence just replaced. -/
def replaceSkip (pat repl : List Char) : Nat → List Char → List Char
  | _, [] => []
  | n + 1, _ :: rest => replaceSkip pat repl n rest
  | 0, c :: rest =>
    if pat.isPrefixOf (c :: rest) && !pat.isEmpty then
      repl ++ replaceSkip pat repl (pat.length - 1) rest
    else
      c :: replaceSkip pat repl 0 rest

/-- Python `str.replace(pat, repl)`: replace all non-overlapping
occurrences left to right (patterns used in the code are nonempty). -/
def replaceList (pat repl : List Char) (l : List Char) : List Char :=
  replaceSkip pat repl 0 l

/-- Python `str.zfill(width)`: left-pad with zeros to `width`, keeping a
leading sign in place. -/
def zfillList (width : Nat) (l : List Char) : List Char :=
  if width ≤ l.length then l
  else
    match l with
    | c :: rest =>
      if c = '+' ∨ c = '-' then c :: (List.replicate (width - l.length) '0' ++ rest)
      else List.replicate (width - l.length) '0' ++ l
    | [] => List.replicate width '0'

def zfill (width : Nat) (s : String) : String := String.mk (zfillList width s.data)

/-- Python `str.isdigit()`: nonempty and all digits. -/
def pyIsDigitList (l : List Char) : Bool := !l.isEmpty && l.all Char.isDigit

def pyIsDigit (s : String) : Bool := pyIsDigitList s.data

/-- `\w` of Python's `re` module (ASCII range, as in the scraped data). -/
def isWordChar (c : Char) : Bool := c.isAlphanum || c = '_'

/-- Worker for `insertParenSpace`, carrying the previous character. -/
def insertParenSpaceAux (prev : Option Char) : List Char → List Char
  | [] => []
  | c :: rest =>
    if c = '(' && (match prev with | some p => isWordChar p | none => false) then
      ' ' :: '(' :: insertParenSpaceAux (some '(') rest
    else
      c :: insertParenSpaceAux (some c) rest

/-- `re.sub(r"(\w)\(", r"\1 (", s)`: insert a space between a word
character and an immediately following opening parenthesis. -/
def insertParenSpace (l : List Char) : List Char :=
  insertParenSpaceAux none l

/-! ## src/transform/normalizers.py and src/transform/constants.py -/

/-- One family-configuration metadata dict `{adults, working_adults, children}`. -/
structure FamilyConfig where
  adults : Nat
  working_adults : Nat
  children : Nat
deriving DecidableEq, Repr

/-- `FAMILY_CONFIG_MAP` from src/transform/constants.py, keys verbatim. -/
def FAMILY_CONFIG_MAP : List (String × FamilyConfig) :=
  [ ("1 Adult", ⟨1, 1, 0⟩),
    ("1 Adult 1 Child", ⟨1, 1, 1⟩),
    ("1 Adult 2 Children", ⟨1, 1, 2⟩),
    ("1 Adult 3 Children", ⟨1, 1, 3⟩),
    ("2 Adults (1 Working)", ⟨2, 1, 0⟩),
    ("2 Adults (1 Working) 1 Child", ⟨2, 1, 1⟩),
    ("2 Adults (1 Working) 2 Children", ⟨2, 1, 2⟩),
    ("2 Adults (1 Working) 3 Children", ⟨2, 1, 3⟩),
    ("2 Adults", ⟨2, 2, 0⟩),
    ("2 Adults 1 Child", ⟨2, 2, 1⟩),
    ("2 Adults 2 Children", ⟨2, 2, 2⟩),
    ("2 Adults 3 Children", ⟨2, 2, 3⟩) ]

/-- `dict.get`: first (unique) matching key. -/
def mapGet {α : Type} : List (String × α) → String → Option α
  | [], _ => none
  | p :: rest, k => if p.1 = k then some p.2 else mapGet rest k

/-- `normalize_header_for_lookup` from src/transform/normalizers.py (the
version imported by src/transform/pandas_ops.py): lowercase, drop " - "
separators, space before parentheses, collapse spaces, drop
"(both working)", drop " 0 children"/" 0 child", collapse again. -/
def normalize_header_for_lookup (header : String) : String :=
  let l := header.data.map Char.toLower
  let l := replaceList " - ".data " ".data l
  let l := insertParenSpace l
  let l := collapseWs l
  let l := stripList (replaceList "(both working)".data [] l)
  let l := stripList (replaceList " 0 child".data [] (replaceList " 0 children".data [] l))
  String.mk (collapseWs l)

/-- `get_family_config_metadata` from src/transform/normalizers.py:
normalize, then look up in `FAMILY_CONFIG_MAP`. -/
def get_family_config_metadata (header : String) : Option FamilyConfig :=
  mapGet FAMILY_CONFIG_MAP (normalize_header_for_lookup header)

/-! ## src/transform/models.py -/

/-- The raw values a melted long-format row feeds into `WageRecord`:
the family-configuration columns are `Option` because an unmatched
header leaves null `adults`/`working_adults`/`children` (pydantic then
fails the int fields). -/
structure RawWage where
  county_fips : String
  page_updated_at : Int
  adults : Option Int
  working_adults : Option Int
  children : Option Int
  wage_type : String
  hourly_wage : ℚ
deriving DecidableEq, Repr

/-- A validated `WageRecord`. -/
structure WageModel where
  county_fips : String
  page_updated_at : Int
  adults : Int
  working_adults : Int
  children : Int
  wage_type : String
  hourly_wage : ℚ
deriving DecidableEq, Repr

/-- `BaseRecord.validate_county_fips`: zero-fill to five characters,
then require exactly five characters, all digits. -/
def validate_county_fips (v : String) : Except String String :=
  let p := zfillList 5 v.data
  if p.length = 5 && pyIsDigitList p then .ok (String.mk p)
  else .error "county_fips must be a 5-digit string (state + county FIPS)"

/-- `BaseRecord.validate_adults`: adults must be 1 or 2. -/
def validate_adults (v : Int) : Bool := v = 1 || v = 2

/-- `BaseRecord.validate_working_adults`: at least 1, and at most
`adults` whenever the adults field is available in `info.data` (it is
absent when the adults field itself failed validation). -/
def validate_working_adults (adultsData : Option Int) (v : Int) : Bool :=
  1 ≤ v && (match adultsData with | some a => v ≤ a | none => true)

/-- `BaseRecord.validate_children`: children between 0 and 3. -/
def validate_children (v : Int) : Bool := 0 ≤ v && v ≤ 3

/-- `WageRecord.wage_type` literal domain. -/
def wageTypeOk (s : String) : Bool :=
  s = "living" || s = "poverty" || s = "minimum"

/-- The conjunction of the remaining `WageRecord` field checks:
`info.data` carries `adults` into the working-adults validator only
when the adults field itself validated. -/
def wageFieldsOk (a w c : Int) (wt : String) (hw : ℚ) : Bool :=
  validate_adults a &&
  validate_working_adults (if validate_adults a then some a else none) w &&
  validate_children c && wageTypeOk wt && decide (0 ≤ hw)

/-- Constructing a `WageRecord`: every field validator must pass
(pydantic collects all field errors; construction succeeds iff there are
none).  `none` models a raised `ValidationError`. -/
def validateWageRecord (r : RawWage) : Option WageModel := do
  let fips ← (validate_county_fips r.county_fips).toOption
  let a ← r.adults
  let w ← r.working_adults
  let c ← r.children
  if wageFieldsOk a w c r.wage_type r.hourly_wage then
    some ⟨fips, r.page_updated_at, a, w, c, r.wage_type, r.hourly_wage⟩
  else
    none

/-- `model_dump()` of a validated record, viewed as a row again. -/
def modelDump (m : WageModel) : RawWage :=
  ⟨m.county_fips, m.page_updated_at, some m.adults, some m.working_adults,
    some m.children, m.wage_type, m.hourly_wage⟩

/-! ## src/transform/pandas_ops.py -/

/-- `dataframe_to_models` (specialised to `WageRecord`): iterate rows
with their index, appending validated models or `(row_index, error)`
entries (here just the index). -/
def dataframe_to_models : List RawWage → Nat → List WageModel × List Nat
  | [], _ => ([], [])
  | r :: rs, i =>
    let (ms, es) := dataframe_to_models rs (i + 1)
    match validateWageRecord r with
    | some m => (m :: ms, es)
    | none => (ms, i :: es)

/-- The validation tail of `normalize_wages` (`validate=True`): run
`dataframe_to_models`; if there are errors, log a warning and keep the
working set unchanged, otherwise replace it with the dumped models. -/
def normalizeWagesValidate (rows : List RawWage) : List RawWage :=
  let pr := dataframe_to_models rows 0
  if pr.2.isEmpty then pr.1.map modelDump else rows

/-- The `full_fips` computed by `normalize_wages`/`normalize_expenses`:
`str(state_fips).zfill(2) + str(county_fips).zfill(3)`. -/
def fullFips (state county : String) : String :=
  String.mk (zfillList 2 state.data ++ zfillList 3 county.data)

/-- `astype(str)` on one cell: Python `None` renders as `"None"`. -/
def pyStrOfCell : Option String → String
  | some s => s
  | none => "None"

/-- Digit run to a natural number. -/
def natOfDigits (l : List Char) : Nat :=
  l.foldl (fun acc c => acc * 10 + (c.toNat - '0'.toNat)) 0

/-- Unsigned decimal literal: digits, optionally followed by a dot and
digits, with at least one digit overall. -/
def parseUnsigned (l : List Char) : Option ℚ :=
  let ip := l.takeWhile Char.isDigit
  let rest := l.dropWhile Char.isDigit
  match rest with
  | [] => if ip.isEmpty then none else some (natOfDigits ip)
  | '.' :: fp =>
    if fp.all Char.isDigit && (!ip.isEmpty || !fp.isEmpty) then
      some (mkRat (natOfDigits ip * 10 ^ fp.length + natOfDigits fp) (10 ^ fp.length))
    else none
  | _ => none

/-- `pd.to_numeric(·, errors="coerce")` on a cleaned string: numeric
coercion of a signed decimal literal, modelled over exact rationals;
`none` is the NaN produced for a non-parseable value. -/
def parseNumeric (l : List Char) : Option ℚ :=
  match l with
  | '-' :: rest => (parseUnsigned rest).map Neg.neg
  | '+' :: rest => parseUnsigned rest
  | _ => parseUnsigned l

/-- `clean_currency_columns` on one cell: render as string, strip `$`
and `,`, strip whitespace, coerce to numeric, and fill NaN with 0. -/
def clean_currency_cell (cell : Option String) : ℚ :=
  let s := pyStrOfCell cell
  let cleaned := stripList (replaceList ",".data [] (replaceList "$".data [] s.data))
  match parseNumeric cleaned with
  | some q => q
  | none => 0

/-! ## src/extract/http.py — `HttpClient._fetch_with_retry` -/

/-- What one transport attempt produces: a body, or one of the
exception classes distinguished by `_fetch_with_retry`. -/
inductive Outcome where
  | ok (content : Nat)
  | timeout
  | connError
  | httpError (status : Nat)
  | reqError
deriving DecidableEq, Repr

/-- How `_fetch_with_retry` terminates, with the number of attempts
made: a returned body, an `HTTPError` re-raised inside the loop, a
non-retryable `RequestException`, or the loop exhausting `max_retries`
and re-raising the last exception. -/
inductive FetchResult where
  | success (content : Nat) (attempts : Nat)
  | raisedHttp (status : Nat) (attempts : Nat)
  | raisedReq (attempts : Nat)
  | exhausted (attempts : Nat)
deriving DecidableEq, Repr

/-- `_wait`: sleep `base_delay * 2^attempt`, but only when
`attempt < max_retries - 1`.  Returned as the list of sleeps taken. -/
def waitTime (attempt baseDelay maxRetries : Nat) : List Nat :=
  if attempt < maxRetries - 1 then [baseDelay * 2 ^ attempt] else []

/-- The retry loop of `_fetch_with_retry`.  `remaining` counts loop
iterations left; `sleeps` accumulates sleeps most recent first.  The
HTTP status classification is verbatim from the source `match`:
404 raise; 429 wait (base 4); `code` with `code <= 500 and code <= 599`
wait (base 4); otherwise raise. -/
def fetchRetryGo (transport : Nat → Outcome) (maxRetries : Nat) :
    Nat → Nat → List Nat → FetchResult × List Nat
  | attempt, 0, sleeps => (.exhausted attempt, sleeps.reverse)
  | attempt, remaining + 1, sleeps =>
    match transport attempt with
    | .ok b => (.success b (attempt + 1), sleeps.reverse)
    | .timeout =>
      fetchRetryGo transport maxRetries (attempt + 1) remaining
        (waitTime attempt 1 maxRetries ++ sleeps)
    | .connError =>
      fetchRetryGo transport maxRetries (attempt + 1) remaining
        (waitTime attempt 1 maxRetries ++ sleeps)
    | .httpError s =>
      if s = 404 then (.raisedHttp s (attempt + 1), sleeps.reverse)
      else if s = 429 then
        fetchRetryGo transport maxRetries (attempt + 1) remaining
          (waitTime attempt 4 maxRetries ++ sleeps)
      else if s ≤ 500 ∧ s ≤ 599 then
        fetchRetryGo transport maxRetries (attempt + 1) remaining
          (waitTime attempt 4 maxRetries ++ sleeps)
      else (.raisedHttp s (attempt + 1), sleeps.reverse)
    | .reqError => (.raisedReq (attempt + 1), sleeps.reverse)

/-- `_fetch_with_retry`: run the loop for `max_retries` attempts, also
reporting the backoff sleeps in chronological order. -/
def fetchWithRetry (maxRetries : Nat) (transport : Nat → Outcome) :
    FetchResult × List Nat :=
  fetchRetryGo transport maxRetries 0 maxRetries []

/-! ## src/extract/cache.py — `ResponseCache` -/

/-- The `content` field of a stored cache file: absent (`KeyError`),
undecodable base64 (`ValueError`), or decoded bytes. -/
inductive ContentField where
  | missing
  | badB64
  | bytes (b : List Nat)
deriving DecidableEq, Repr

/-- One on-disk cache file as the deserialization stages see it:
invalid JSON (`json.JSONDecodeError`), valid JSON without a
`timestamp` key (`KeyError`), a `timestamp` string rejected by
`datetime.fromisoformat` (`ValueError`), or a parsed timestamp plus a
`content` field. -/
inductive CacheFileModel where
  | notJson
  | noTimestampKey
  | badTimestamp
  | entry (timestamp : Int) (content : ContentField)
deriving DecidableEq, Repr

/-- `_is_expired`: `now - timestamp > timedelta(days=ttl_days)`, in time
units where the configured TTL equals `ttlDays`. -/
def isExpired (ttlDays now ts : Int) : Bool := ttlDays < now - ts

/-- `ResponseCache.get` on the entry for one key: returns the decoded
content (if any) and the file remaining on disk afterwards.  Corruption
(`JSONDecodeError`/`KeyError`/`ValueError`) is caught and the file
unlinked; an expired entry returns `None` inside the `try` block with
no unlink. -/
def cacheGet (now ttlDays : Int) (file : Option CacheFileModel) :
    Option (List Nat) × Option CacheFileModel :=
  match file with
  | none => (none, none)
  | some .notJson => (none, none)
  | some .noTimestampKey => (none, none)
  | some .badTimestamp => (none, none)
  | some (.entry ts c) =>
    if isExpired ttlDays now ts then (none, some (.entry ts c))
    else
      match c with
      | .missing => (none, none)
      | .badB64 => (none, none)
      | .bytes b => (some b, some (.entry ts c))

/-- `ResponseCache.clear_all` over the cache directory (files in glob
order): expired entries and files failing with `JSONDecodeError` or
`KeyError` are unlinked and counted; a `ValueError` from
`datetime.fromisoformat` is not in the except clause and propagates,
modelled as `Except.error`.  On success, returns the count and the
files remaining on disk. -/
def clear_all (now ttlDays : Int) :
    List CacheFileModel → Except String (Nat × List CacheFileModel)
  | [] => .ok (0, [])
  | .notJson :: fs => (clear_all now ttlDays fs).map (fun p => (p.1 + 1, p.2))
  | .noTimestampKey :: fs => (clear_all now ttlDays fs).map (fun p => (p.1 + 1, p.2))
  | .badTimestamp :: _ => .error "Invalid isoformat string"
  | .entry ts c :: fs =>
    if isExpired ttlDays now ts then
      (clear_all now ttlDays fs).map (fun p => (p.1 + 1, p.2))
    else
      (clear_all now ttlDays fs).map (fun p => (p.1, .entry ts c :: p.2))

/-- Which files the amended reading of `clear_all` removes: unparseable
files and expired entries. -/
def clearAllRemoves (now ttlDays : Int) : CacheFileModel → Bool
  | .notJson => true
  | .noTimestampKey => true
  | .badTimestamp => true
  | .entry ts _ => isExpired ttlDays now ts

/-- The corruption cases `ResponseCache.get` catches and self-heals. -/
def isCorruptFile (f : CacheFileModel) : Prop :=
  f = .notJson ∨ f = .noTimestampKey ∨ f = .badTimestamp

/-! ## src/extract/wage_scraper.py — `WageExtractor` -/

/-- One header cell: its stripped text and `colspan` (default 1). -/
structure Th where
  text : String
  colspan : Nat
deriving DecidableEq, Repr

/-- One `results_table`: the first `tr` of each `thead` (cells with
text and colspan) and the `tbody` rows (cell texts); a missing `tbody`
is the empty row list. -/
structure TableModel where
  theads : List (List Th)
  body : List (List String)
deriving DecidableEq, Repr

/-- Inner loop of `_extract_headers` for one adult configuration:
append `"{adult_text} - {child}"` once per colspan unit while
`col_index < len(child_counts)`, threading `col_index`. -/
def buildHeadersCfg (adultText : String) :
    Nat → List String → Nat → List String × Nat
  | 0, _, colIndex => ([], colIndex)
  | k + 1, childCounts, colIndex =>
    if colIndex < childCounts.length then
      let h := adultText ++ " - " ++ childCounts.getD colIndex ""
      let (hs, ci) := buildHeadersCfg adultText k childCounts (colIndex + 1)
      (h :: hs, ci)
    else
      buildHeadersCfg adultText k childCounts colIndex

/-- Outer loop of `_extract_headers` over the adult configurations. -/
def buildHeaders : List (String × Nat) → List String → Nat → List String
  | [], _, _ => []
  | (t, cs) :: cfgs, childCounts, colIndex =>
    let (hs, ci) := buildHeadersCfg t cs childCounts colIndex
    hs ++ buildHeaders cfgs childCounts ci

/-- `_extract_headers`: needs at least two `thead`s; row 1 gives the
nonblank adult configurations with colspans, row 2 the child counts;
the first header is `child_counts[0]` if nonblank else `"Category"`
(an empty row 2 makes `child_counts[0]` raise `IndexError`). -/
def extractHeaders (t : TableModel) : Except String (List String) :=
  match t.theads with
  | r1 :: r2 :: _ =>
    let adultConfigs := (r1.filter (fun th => th.text ≠ "")).map (fun th => (th.text, th.colspan))
    let childCounts := r2.map Th.text
    match childCounts with
    | [] => .error "list index out of range"
    | c0 :: _ =>
      let first := if c0 ≠ "" then c0 else "Category"
      .ok (first :: buildHeaders adultConfigs childCounts 1)
  | _ => .error "Unexpected table header format"

/-- The pad/truncate adjustment of `_extract_table` on one body row:
shorter rows are padded with `None`, longer rows truncated, to exactly
the header count. -/
def padTruncRow (row : List String) (n : Nat) : List (Option String) :=
  (row.map some ++ List.replicate (n - row.length) none).take n

/-- Keys of a Python dict modelled as an ordered association list. -/
def pyDictKeys {α : Type} (d : List (String × α)) : List String := d.map Prod.fst

/-- `d[k] = v` on a Python dict: update an existing key in place,
otherwise append at the end (insertion order preserved). -/
def pyDictInsert {α : Type} : List (String × α) → String → α → List (String × α)
  | [], k, v => [(k, v)]
  | p :: rest, k, v => if p.1 = k then (k, v) :: rest else p :: pyDictInsert rest k v

/-- `dict(pairs)`: left-to-right insertion. -/
def pyDictOfPairs {α : Type} (ps : List (String × α)) : List (String × α) :=
  ps.foldl (fun d p => pyDictInsert d p.1 p.2) []

/-- `d.get(k)` on a Python dict. -/
def pyDictGet {α : Type} (d : List (String × α)) (k : String) : Option α :=
  (d.find? (fun p => p.1 == k)).map Prod.snd

/-- A row dict emitted by `_extract_table`. -/
abbrev PyRow := List (String × Option String)

/-- The dict built for one body row: `dict(zip(headers, row))` over the
pad/truncate-adjusted row, then `row_dict["county_fips"] = county`. -/
def rowDict (headers : List String) (row : List String) (county : String) : PyRow :=
  pyDictInsert (pyDictOfPairs (headers.zip (padTruncRow row headers.length)))
    "county_fips" (some county)

/-- `_extract_table`: compute headers, zero-fill the county code to 3,
then emit one dict per body row. -/
def extractTable (t : TableModel) (county_fips : String) :
    Except String (List PyRow) := do
  let headers ← extractHeaders t
  let county := String.mk (zfillList 3 county_fips.data)
  pure (t.body.map (fun row => rowDict headers row county))

/-- The dict `_parse_page` returns; `page_updated_at` is `none` because
`_parse_page` never sets that key. -/
structure CountyData where
  wages_data : List PyRow
  expenses_data : List PyRow
  page_updated_at : Option Int
deriving DecidableEq, Repr

/-- `_parse_page`: require at least two `results_table`s — fewer is the
hard error `"Expected at least 2 tables, found N"` — then extract the
first two. -/
def parsePage (tables : List TableModel) (county_fips : String) :
    Except String CountyData :=
  match tables with
  | t0 :: t1 :: _ => do
    let w ← extractTable t0 county_fips
    let e ← extractTable t1 county_fips
    pure ⟨w, e, none⟩
  | _ => .error ("Expected at least 2 tables, found " ++ toString tables.length)

/-- `get_county_data`: zero-fill the FIPS parts, fetch the page (the
HTTP layer abstracted as an `Except` of the parsed table list), and
parse.  Any exception from fetching or parsing is the `error` case. -/
def get_county_data (fetch : Except String (List TableModel))
    (_state_fips county_fips : String) : Except String CountyData := do
  let c := String.mk (zfillList 3 county_fips.data)
  let tables ← fetch
  parsePage tables c

/-! ## src/extract/extract_ops.py -/

/-- `ScrapeResult` dataclass. -/
structure ScrapeResult where
  fips_code : String
  success : Bool
  wages_data : Option (List PyRow)
  expenses_data : Option (List PyRow)
  page_updated_at : Option Int
  error : Option String
deriving DecidableEq, Repr

/-- `scrape_county_with_extractor`: try `get_county_data` and build a
successful result from the returned dict; any exception is caught and
becomes `success=False, error=str(e)`.  Reading `data["page_updated_at"]`
raises `KeyError` (str of which is `"'page_updated_at'"`) when the key
is absent, which the same handler catches. -/
def scrape_county_with_extractor (fetch : Except String (List TableModel))
    (state_fips county_fips : String) : ScrapeResult :=
  let full_fips := state_fips ++ county_fips
  match get_county_data fetch state_fips county_fips with
  | .error e => ⟨full_fips, false, none, none, none, some e⟩
  | .ok d =>
    match d.page_updated_at with
    | some ts => ⟨full_fips, true, some d.wages_data, some d.expenses_data, some ts, none⟩
    | none => ⟨full_fips, false, none, none, none, some "'page_updated_at'"⟩

/-! ## Concrete fixtures used in closed theorems -/

/-- A melted row that passes `WageRecord` validation. -/
def sampleValidWageRow : RawWage :=
  ⟨"34001", 0, some 1, some 1, some 0, "living", 20⟩

/-- The same row with `adults=3`, which `validate_adults` rejects. -/
def sampleAdults3Row : RawWage :=
  ⟨"34001", 0, some 3, some 1, some 0, "living", 20⟩

/-- A valid row with `children=3` (the accepted upper boundary). -/
def sampleChildren3Row : RawWage :=
  ⟨"34001", 0, some 2, some 2, some 3, "living", 20⟩

/-- A valid row with `hourly_wage=0` (the accepted lower boundary). -/
def sampleZeroWageRow : RawWage :=
  ⟨"34001", 0, some 1, some 1, some 0, "minimum", 0⟩

/-- `sampleZeroWageRow` with `hourly_wage=-0.01`. -/
def sampleNegWageRow : RawWage :=
  ⟨"34001", 0, some 1, some 1, some 0, "minimum", -0.01⟩

/-- A well-formed one-column `results_table` with one short body row. -/
def sampleTable : TableModel :=
  { theads := [[⟨"1 Adult", 1⟩], [⟨"", 1⟩, ⟨"0 Children", 1⟩]],
    body := [["food"]] }

/-- Decidable equality for `Except`, used to evaluate closed goals. -/
instance {ε α : Type} [DecidableEq ε] [DecidableEq α] : DecidableEq (Except ε α) := fun a b =>
  match a, b with
  | .ok x, .ok y =>
    if h : x = y then .isTrue (by rw [h]) else .isFalse (by intro hc; cases hc; exact h rfl)
  | .error x, .error y =>
    if h : x = y then .isTrue (by rw [h]) else .isFalse (by intro hc; cases hc; exact h rfl)
  | .ok _, .error _ => .isFalse (by intro hc; cases hc)
  | .error _, .ok _ => .isFalse (by intro hc; cases hc)

/-! # Theorems -/

/-- C1: `normalize_header_for_lookup` maps the spacing/case variants of
"2 adults 2 children" to one lowercase key, but `FAMILY_CONFIG_MAP`
stores the configuration under the Title-Case key
"2 Adults 2 Children", so `get_family_config_metadata` returns `none`
for every variant — not the `{adults: 2, working_adults: 2, children: 2}`
metadata the claim (and the repository's unit tests) expect. -/
theorem family_config_lookup_broken :
    normalize_header_for_lookup "2 ADULTS (BOTH WORKING) - 2 CHILDREN" = "2 adults 2 children" ∧
    normalize_header_for_lookup "2 adults 2 children" = "2 adults 2 children" ∧
    get_family_config_metadata "2 ADULTS (BOTH WORKING) - 2 CHILDREN" = none ∧
    get_family_config_metadata "2 adults 2 children" = none ∧
    mapGet FAMILY_CONFIG_MAP "2 Adults 2 Children" = some ⟨2, 2, 2⟩ := by
  exact ⟨by decide, by decide, by decide, by decide, by decide⟩

/-- C3: the status classification of `_fetch_with_retry` evaluated with
`max_retries = 3`: 503 (like every status in 501–599) raises on the
first attempt with no retry, while 400 is retried to exhaustion with
backoff sleeps 4·2⁰ and 4·2¹ — the guard `code <= 500 and code <= 599`
retries exactly the statuses ≤ 500.  404 raises immediately and 429 is
retried with base delay 4, as the claim states; 500 is the only server
error that is retried. -/
theorem retry_misclassifies_http_status :
    fetchWithRetry 3 (fun _ => .httpError 503) = (.raisedHttp 503 1, []) ∧
    fetchWithRetry 3 (fun _ => .httpError 400) = (.exhausted 3, [4, 8]) ∧
    fetchWithRetry 3 (fun _ => .httpError 404) = (.raisedHttp 404 1, []) ∧
    fetchWithRetry 3 (fun _ => .httpError 500) = (.exhausted 3, [4, 8]) ∧
    fetchWithRetry 3 (fun i => if i = 0 then .httpError 429 else .ok 7) = (.success 7 2, [4]) := by
  exact ⟨by decide, by decide, by decide, by decide, by decide⟩

/-- C9: currency cleaning strips `$` and `,` and coerces to a number,
sending non-parseable values (including the string rendering of a
missing cell) to 0: `clean("$1,000.50") = 1000.50`,
`clean("garbage") = 0`, `clean(None) = 0`. -/
theorem clean_currency_examples :
    clean_currency_cell (some "$1,000.50") = 1000.50 ∧
    clean_currency_cell (some "garbage") = 0 ∧
    clean_currency_cell none = 0 := by
  refine ⟨?_, by decide, by decide⟩
  show _ = (OfScientific.ofScientific 100050 true 2 : ℚ)
  rw [show (OfScientific.ofScientific 100050 true 2 : ℚ) = Rat.ofScientific 100050 true 2 from rfl,
    Rat.ofScientific_true_def]
  decide

/-- C4 counterexample: at `now = 100`, `ttl_days = 30`, a valid cache
entry stored at time 0 is expired, yet `get` returns `None` while the
file stays on disk — `get` does not delete expired entries, so after
this `get` the on-disk entry is neither valid-and-fresh nor absent. -/
theorem cacheGet_expired_leaves_file_on_disk :
    cacheGet 100 30 (some (.entry 0 (.bytes [1]))) = (none, some (.entry 0 (.bytes [1]))) ∧
    isExpired 30 100 0 = true := by
  exact ⟨by decide, by decide⟩

/-- C6 counterexample: `validate_county_fips` zero-fills before
checking, so the 3-character input "123" — not a 5-digit string — is
accepted as "00123" rather than rejected. -/
theorem validate_county_fips_accepts_short_digit_string :
    validate_county_fips "123" = .ok "00123" ∧ ("123" : String).length ≠ 5 := by
  exact ⟨by decide, by decide⟩

/-- C10 counterexample: a cache directory holding one valid-JSON file
whose timestamp string does not parse makes `clear_all` raise the
`ValueError` from `datetime.fromisoformat` (its except clause catches
only `JSONDecodeError` and `KeyError`), so the unparseable file is
neither removed nor counted and no count is returned. -/
theorem clear_all_raises_on_unparseable_timestamp :
    clear_all 100 30 [.badTimestamp] = .error "Invalid isoformat string" := by
  decide

/-- A record fails to construct whenever the field checks come out
false for the values actually present. -/
theorem validateWageRecord_eq_none (r : RawWage)
    (h : ∀ a w c, r.adults = some a → r.working_adults = some w → r.children = some c →
      wageFieldsOk a w c r.wage_type r.hourly_wage = false) :
    validateWageRecord r = none := by
  rcases hcf : (validate_county_fips r.county_fips).toOption with _ | fips <;>
    rcases ha : r.adults with _ | a <;>
      rcases hw : r.working_adults with _ | w <;>
        rcases hc : r.children with _ | c <;>
          simp [validateWageRecord, hcf, ha, hw, hc]
  exact h a w c ha hw hc

/-- C7: the record-schema boundaries: `adults=3` is always rejected,
`working_adults < 1` is always rejected, `working_adults > adults` is
always rejected, `children=4` is rejected while `children=3` is
accepted, and a negative `hourly_wage` (in particular `-0.01`) is
rejected while `hourly_wage=0` is accepted. -/
theorem validation_boundary_checks :
    (∀ r : RawWage, r.adults = some 3 → validateWageRecord r = none) ∧
    (∀ r : RawWage, ∀ w, r.working_adults = some w → w < 1 → validateWageRecord r = none) ∧
    (∀ r : RawWage, ∀ a w, r.adults = some a → r.working_adults = some w → a < w →
      validateWageRecord r = none) ∧
    (∀ r : RawWage, r.children = some 4 → validateWageRecord r = none) ∧
    (∀ r : RawWage, r.hourly_wage < 0 → validateWageRecord r = none) ∧
    validateWageRecord sampleNegWageRow = none ∧
    (validateWageRecord sampleChildren3Row).isSome = true ∧
    (validateWageRecord sampleZeroWageRow).isSome = true := by
  have hneg : ∀ r : RawWage, r.hourly_wage < 0 → validateWageRecord r = none := by
    intro r h
    apply validateWageRecord_eq_none
    intro a w c _ _ _
    have : ¬ (0 ≤ r.hourly_wage) := not_le.mpr h
    simp [wageFieldsOk, this]
  refine ⟨?_, ?_, ?_, ?_, hneg, ?_, by decide, by decide⟩
  · intro r h
    apply validateWageRecord_eq_none
    intro a w c ha _ _
    rw [h] at ha
    cases ha
    simp [wageFieldsOk, validate_adults]
  · intro r w hw hlt
    apply validateWageRecord_eq_none
    intro a w' c _ hw' _
    rw [hw] at hw'
    cases hw'
    have h1 : validate_working_adults (if validate_adults a then some a else none) w = false := by
      simp only [validate_working_adults, Bool.and_eq_false_iff, decide_eq_false_iff_not]
      left; omega
    simp [wageFieldsOk, h1]
  · intro r a w ha hw hlt
    apply validateWageRecord_eq_none
    intro a' w' c ha' hw' _
    rw [ha] at ha'; rw [hw] at hw'
    cases ha'; cases hw'
    by_cases hva : validate_adults a = true
    · have h1 : validate_working_adults (if validate_adults a then some a else none) w = false := by
        simp only [hva, if_true, validate_working_adults, Bool.and_eq_false_iff,
          decide_eq_false_iff_not]
        right; omega
      simp [wageFieldsOk, h1]
    · rw [Bool.not_eq_true] at hva
      simp [wageFieldsOk, hva]
  · intro r h
    apply validateWageRecord_eq_none
    intro a w c _ _ hc
    rw [h] at hc
    cases hc
    simp [wageFieldsOk, validate_children]
  · exact hneg sampleNegWageRow (by norm_num [sampleNegWageRow])

/-- Witness for C7 at a concrete record with `adults=3`. -/
theorem validation_boundary_checks_witness :
    validateWageRecord sampleAdults3Row = none :=
  validation_boundary_checks.1 sampleAdults3Row rfl

/-- C2 counterexample: on a working set with one valid and one invalid
row, `dataframe_to_models` flags row 1, but the validation tail of
`normalize_wages` returns the working set unchanged — the passing row
is not replaced by its validated model and the error list goes only to
the log, not to the caller. -/
theorem normalize_wages_does_not_replace_on_error :
    (dataframe_to_models [sampleValidWageRow, sampleAdults3Row] 0).2 = [1] ∧
    normalizeWagesValidate [sampleValidWageRow, sampleAdults3Row] =
      [sampleValidWageRow, sampleAdults3Row] ∧
    normalizeWagesValidate [sampleValidWageRow, sampleAdults3Row] ≠
      (dataframe_to_models [sampleValidWageRow, sampleAdults3Row] 0).1.map modelDump := by
  exact ⟨by decide, by decide, by decide⟩

/-- C2 amended: `dataframe_to_models` represents every row — the model
and error lists partition the input by count — and it does return the
error list to its caller; but `normalize_wages` only logs that list:
whenever any row fails, the working set is returned unchanged (all rows
kept raw, none dropped), and it is replaced by the validated records
exactly when no row fails. -/
theorem dataframe_to_models_partitions :
    (∀ (rows : List RawWage) (i : Nat),
      ((dataframe_to_models rows i).1).length + ((dataframe_to_models rows i).2).length
        = rows.length) ∧
    (∀ rows : List RawWage, (dataframe_to_models rows 0).2 ≠ [] →
      normalizeWagesValidate rows = rows) ∧
    (∀ rows : List RawWage, (dataframe_to_models rows 0).2 = [] →
      normalizeWagesValidate rows = ((dataframe_to_models rows 0).1).map modelDump) := by
  refine ⟨?_, ?_, ?_⟩
  · intro rows
    induction rows with
    | nil => intro i; rfl
    | cons r rs ih =>
      intro i
      cases hv : validateWageRecord r <;>
        simp [dataframe_to_models, hv, ← ih (i + 1)] <;> omega
  · intro rows h
    have he : ((dataframe_to_models rows 0).2).isEmpty = false := by
      cases hx : (dataframe_to_models rows 0).2 with
      | nil => exact absurd hx h
      | cons e es => rfl
    simp [normalizeWagesValidate, he]
  · intro rows h
    have he : ((dataframe_to_models rows 0).2).isEmpty = true := by
      rw [h]; rfl
    simp [normalizeWagesValidate, he]

/-- Witness for C2 at a one-row working set whose row fails. -/
theorem dataframe_to_models_partitions_witness :
    normalizeWagesValidate [sampleAdults3Row] = [sampleAdults3Row] :=
  dataframe_to_models_partitions.2.1 [sampleAdults3Row] (by decide)

/-- C4 amended: `get` returns null both for an expired entry and for a
corrupt file, but deletes the file only in the corruption case; an
expired entry is left on disk (only `clear_expired` removes it), so
after a `get` the entry is valid-and-fresh, absent, or
expired-but-intact. -/
theorem cacheGet_self_heals_corruption_only :
    (∀ now ttl : Int, cacheGet now ttl none = (none, none)) ∧
    (∀ now ttl : Int, ∀ f, isCorruptFile f → cacheGet now ttl (some f) = (none, none)) ∧
    (∀ now ttl ts : Int, ∀ c, isExpired ttl now ts = true →
      cacheGet now ttl (some (.entry ts c)) = (none, some (.entry ts c))) ∧
    (∀ now ttl ts : Int, isExpired ttl now ts = false →
      cacheGet now ttl (some (.entry ts .missing)) = (none, none) ∧
      cacheGet now ttl (some (.entry ts .badB64)) = (none, none)) ∧
    (∀ now ttl ts : Int, ∀ b, isExpired ttl now ts = false →
      cacheGet now ttl (some (.entry ts (.bytes b))) = (some b, some (.entry ts (.bytes b)))) := by
  refine ⟨fun now ttl => rfl, ?_, ?_, ?_, ?_⟩
  · rintro now ttl f (rfl | rfl | rfl) <;> rfl
  · intro now ttl ts c h; simp [cacheGet, h]
  · intro now ttl ts h; exact ⟨by simp [cacheGet, h], by simp [cacheGet, h]⟩
  · intro now ttl ts b h; simp [cacheGet, h]

/-- Witness for C4 at a fresh, fully valid entry. -/
theorem cacheGet_self_heals_witness :
    cacheGet 100 30 (some (.entry 90 (.bytes [2]))) = (some [2], some (.entry 90 (.bytes [2]))) :=
  cacheGet_self_heals_corruption_only.2.2.2.2 100 30 90 [2] (by decide)

/-- C10 amended: provided no file has a valid-JSON body with an
unparseable timestamp string (which would raise out of `clear_all`),
`clear_all` removes exactly the expired or unparseable files, returning
their count together with the untouched remainder; every fresh valid
entry stays on disk and, when its content field is intact, is still
retrievable via `get`. -/
theorem clear_all_removes_only_expired_or_unparseable :
    ∀ (now ttl : Int) (files : List CacheFileModel), CacheFileModel.badTimestamp ∉ files →
      clear_all now ttl files =
        .ok (files.countP (clearAllRemoves now ttl),
             files.filter (fun f => !(clearAllRemoves now ttl f))) ∧
      ∀ ts b, isExpired ttl now ts = false → (CacheFileModel.entry ts (.bytes b)) ∈ files →
        (CacheFileModel.entry ts (.bytes b)) ∈ files.filter (fun f => !(clearAllRemoves now ttl f)) ∧
        cacheGet now ttl (some (.entry ts (.bytes b))) = (some b, some (.entry ts (.bytes b))) := by
  intro now ttl files
  induction files with
  | nil =>
    intro _
    exact ⟨rfl, fun ts b _ hmem => absurd hmem (List.not_mem_nil _)⟩
  | cons f fs ih =>
    intro hbad
    obtain ⟨ih1, _⟩ := ih (fun h => hbad (List.mem_cons_of_mem _ h))
    constructor
    · cases f with
      | notJson =>
        simp [clear_all, ih1, List.countP_cons, List.filter_cons, clearAllRemoves, Except.map]
      | noTimestampKey =>
        simp [clear_all, ih1, List.countP_cons, List.filter_cons, clearAllRemoves, Except.map]
      | badTimestamp => exact absurd (List.mem_cons_self _ _) hbad
      | entry ts c =>
        cases hexp : isExpired ttl now ts <;>
          simp [clear_all, hexp, ih1, List.countP_cons, List.filter_cons, clearAllRemoves,
            Except.map]
    · intro ts b hexp hmem
      refine ⟨List.mem_filter.mpr ⟨hmem, ?_⟩, by simp [cacheGet, hexp]⟩
      simp [clearAllRemoves, hexp]

/-- Witness for C10 at a directory with one fresh and one corrupt file. -/
theorem clear_all_removes_witness :
    clear_all 100 30 [.entry 90 (.bytes [2]), .notJson] = .ok (1, [.entry 90 (.bytes [2])]) := by
  have h := (clear_all_removes_only_expired_or_unparseable 100 30
    [.entry 90 (.bytes [2]), .notJson] (by decide)).1
  rw [h]
  decide

/-- `str.zfill` pads to exactly `max width length` characters. -/
theorem zfillList_length (n : Nat) (l : List Char) :
    (zfillList n l).length = max n l.length := by
  unfold zfillList
  by_cases h : n ≤ l.length
  · simp [h, Nat.max_eq_right h]
  · push_neg at h
    rw [if_neg (by omega)]
    cases l with
    | nil => simp
    | cons c rest =>
      by_cases hc : c = '+' ∨ c = '-' <;>
        simp [hc, List.length_append, List.length_replicate] <;> omega

/-- `str.zfill` of an all-digit string is all digits. -/
theorem zfillList_all_digits (n : Nat) (l : List Char)
    (h : l.all Char.isDigit = true) : (zfillList n l).all Char.isDigit = true := by
  unfold zfillList
  by_cases hn : n ≤ l.length
  · simp [hn, h]
  · rw [if_neg hn]
    cases l with
    | nil =>
      simp only [List.all_eq_true]
      intro c hc
      rw [List.eq_of_mem_replicate hc]
      decide
    | cons c rest =>
      have hc : c.isDigit = true := by
        simp only [List.all_cons, Bool.and_eq_true] at h
        exact h.1
      have hsign : ¬(c = '+' ∨ c = '-') := by
        rintro (rfl | rfl) <;> exact absurd hc (by decide)
      simp only [hsign, if_false, List.all_append, Bool.and_eq_true, List.all_eq_true]
      refine ⟨fun x hx => ?_, by simpa using h⟩
      rw [List.eq_of_mem_replicate hx]
      decide

/-- `zfillList` leaves a long-enough list unchanged. -/
theorem zfillList_of_le (n : Nat) (l : List Char) (h : n ≤ l.length) :
    zfillList n l = l := by
  unfold zfillList
  simp [h]

/-- C6 amended: the `full_fips` built by normalization from digit-string
state (length ≤ 2) and county (length ≤ 3) inputs is exactly 5 digits
and passes record validation unchanged; every `county_fips` a record
construction accepts is a 5-character digit string; but the validator
first zero-pads its input, so digit strings of length ≤ 5 are accepted
(padded) rather than rejected, and rejection happens exactly when the
padded value is not a 5-digit digit string (in particular whenever the
input is longer than 5). -/
theorem county_fips_padding :
    (∀ s c : String, pyIsDigit s = true → s.length ≤ 2 → pyIsDigit c = true → c.length ≤ 3 →
      (fullFips s c).length = 5 ∧ pyIsDigit (fullFips s c) = true ∧
      validate_county_fips (fullFips s c) = .ok (fullFips s c)) ∧
    (∀ v w : String, validate_county_fips v = .ok w → w.length = 5 ∧ pyIsDigit w = true) ∧
    (∀ v : String, pyIsDigit v = true → v.length ≤ 5 →
      validate_county_fips v = .ok (zfill 5 v)) ∧
    (∀ v : String, 5 < v.length →
      validate_county_fips v = .error "county_fips must be a 5-digit string (state + county FIPS)") ∧
    (∀ v : String, pyIsDigitList (zfillList 5 v.data) = false →
      validate_county_fips v = .error "county_fips must be a 5-digit string (state + county FIPS)") := by
  refine ⟨?_, ?_, ?_, ?_, ?_⟩
  · intro s c hs hls hc hlc
    have hs' : s.data.all Char.isDigit = true := by
      simp only [pyIsDigit, pyIsDigitList, Bool.and_eq_true] at hs
      exact hs.2
    have hc' : c.data.all Char.isDigit = true := by
      simp only [pyIsDigit, pyIsDigitList, Bool.and_eq_true] at hc
      exact hc.2
    have hls' : s.data.length ≤ 2 := hls
    have hlc' : c.data.length ≤ 3 := hlc
    have h2 : (zfillList 2 s.data).length = 2 := by rw [zfillList_length]; omega
    have h3 : (zfillList 3 c.data).length = 3 := by rw [zfillList_length]; omega
    have hlen : (zfillList 2 s.data ++ zfillList 3 c.data).length = 5 := by
      simp [h2, h3]
    have hdig : (zfillList 2 s.data ++ zfillList 3 c.data).all Char.isDigit = true := by
      simp [List.all_append, zfillList_all_digits _ _ hs', zfillList_all_digits _ _ hc']
    have hne : (zfillList 2 s.data ++ zfillList 3 c.data).isEmpty = false := by
      cases hx : (zfillList 2 s.data ++ zfillList 3 c.data) with
      | nil => rw [hx] at hlen; simp at hlen
      | cons a as => rfl
    refine ⟨hlen, ?_, ?_⟩
    · simp [pyIsDigit, pyIsDigitList, fullFips, hne, hdig]
    · unfold validate_county_fips
      rw [show (fullFips s c).data = zfillList 2 s.data ++ zfillList 3 c.data from rfl]
      rw [zfillList_of_le 5 _ (le_of_eq hlen.symm)]
      rw [if_pos]
      · rfl
      · simp [hlen, pyIsDigitList, hne, hdig]
  · intro v w h
    by_cases hcond : ((zfillList 5 v.data).length = 5 && pyIsDigitList (zfillList 5 v.data)) = true
    · unfold validate_county_fips at h
      rw [if_pos hcond] at h
      cases h
      simp only [Bool.and_eq_true, decide_eq_true_eq] at hcond
      exact ⟨hcond.1, hcond.2⟩
    · unfold validate_county_fips at h
      rw [if_neg hcond] at h
      cases h
  · intro v hv hl
    have hv' : v.data.all Char.isDigit = true := by
      simp only [pyIsDigit, pyIsDigitList, Bool.and_eq_true] at hv
      exact hv.2
    have hl' : v.data.length ≤ 5 := hl
    have h5 : (zfillList 5 v.data).length = 5 := by rw [zfillList_length]; omega
    have hdig := zfillList_all_digits 5 v.data hv'
    have hne : (zfillList 5 v.data).isEmpty = false := by
      cases hx : zfillList 5 v.data with
      | nil => rw [hx] at h5; simp at h5
      | cons a as => rfl
    unfold validate_county_fips
    rw [if_pos]
    · rfl
    · simp [h5, pyIsDigitList, hne, hdig]
  · intro v hl
    have hl' : (5 : Nat) ≤ v.data.length := le_of_lt hl
    unfold validate_county_fips
    rw [zfillList_of_le 5 _ hl']
    rw [if_neg]
    simp only [Bool.and_eq_true, decide_eq_true_eq, not_and]
    intro hlen
    exact absurd hlen (by have : 5 < v.data.length := hl; omega)
  · intro v hbad
    unfold validate_county_fips
    rw [if_neg]
    simp [hbad]

/-- Witness for C6 at state "34", county "1". -/
theorem county_fips_padding_witness :
    (fullFips "34" "1").length = 5 ∧ pyIsDigit (fullFips "34" "1") = true ∧
    validate_county_fips (fullFips "34" "1") = .ok (fullFips "34" "1") :=
  county_fips_padding.1 "34" "1" (by decide) (by decide) (by decide) (by decide)

/-- C5: `scrape_county_with_extractor` never raises: every exception
from fetching or parsing becomes `success=False, error=str(e)`; in
particular a page with exactly one `results_table` produces the hard
parse error "Expected at least 2 tables, found 1", captured verbatim in
the failed result. -/
theorem scrape_converts_exceptions :
    (∀ (fetch : Except String (List TableModel)) (s c e : String),
      get_county_data fetch s c = .error e →
      scrape_county_with_extractor fetch s c = ⟨s ++ c, false, none, none, none, some e⟩) ∧
    (∀ (s c : String) (t : TableModel),
      scrape_county_with_extractor (.ok [t]) s c =
        ⟨s ++ c, false, none, none, none, some "Expected at least 2 tables, found 1"⟩) := by
  constructor
  · intro fetch s c e h
    simp [scrape_county_with_extractor, h]
  · intro s c t
    have h : get_county_data (.ok [t]) s c = .error "Expected at least 2 tables, found 1" := by
      rw [show ("Expected at least 2 tables, found 1" : String) =
          ("Expected at least 2 tables, found " ++ toString (1 : Nat)) from by decide]
      rfl
    simp [scrape_county_with_extractor, h]

/-- Witness for C5 at a fetch that raises. -/
theorem scrape_converts_exceptions_witness :
    scrape_county_with_extractor (.error "boom") "34" "001" =
      ⟨"34" ++ "001", false, none, none, none, some "boom"⟩ :=
  scrape_converts_exceptions.1 (.error "boom") "34" "001" "boom" rfl

/-- Looking up in a cons dict tests the head key first. -/
theorem pyDictGet_cons {α : Type} (p : String × α) (d : List (String × α)) (k : String) :
    pyDictGet (p :: d) k = if p.1 = k then some p.2 else pyDictGet d k := by
  by_cases h : p.1 = k
  · rw [pyDictGet, List.find?_cons_of_pos _ (by simpa using h), if_pos h]
    rfl
  · rw [pyDictGet, List.find?_cons_of_neg _ (by simpa using h), if_neg h]
    rfl

/-- Lookup after a Python-dict assignment: the assigned key reads the
new value, every other key is unchanged. -/
theorem pyDictGet_insert {α : Type} (d : List (String × α)) (k : String) (v : α) (k' : String) :
    pyDictGet (pyDictInsert d k v) k' = if k' = k then some v else pyDictGet d k' := by
  induction d with
  | nil =>
    by_cases h : k' = k
    · simp [pyDictInsert, pyDictGet_cons, h]
    · rw [pyDictInsert, pyDictGet_cons, if_neg (fun hh => h hh.symm), if_neg h]
  | cons p rest ih =>
    by_cases hp : p.1 = k
    · rw [pyDictInsert, if_pos hp]
      by_cases h : k' = k
      · simp [pyDictGet_cons, h]
      · rw [pyDictGet_cons, if_neg (fun hh => h hh.symm), if_neg h, pyDictGet_cons,
          if_neg (fun hh => h (hp.symm.trans hh).symm)]
    · rw [pyDictInsert, if_neg hp]
      by_cases hk : p.1 = k'
      · rw [pyDictGet_cons, if_pos hk, if_neg (fun hh => hp (hk.trans hh)), pyDictGet_cons,
          if_pos hk]
      · rw [pyDictGet_cons, if_neg hk, ih, pyDictGet_cons, if_neg hk]

/-- Presence of a key after folding Python-dict assignments over a pair
list: present before, or mentioned among the pair keys. -/
theorem pyDictGet_foldl_isSome {α : Type} (ps : List (String × α)) :
    ∀ (d : List (String × α)) (k : String),
      (pyDictGet (ps.foldl (fun d p => pyDictInsert d p.1 p.2) d) k).isSome
        = ((pyDictGet d k).isSome || decide (k ∈ ps.map Prod.fst)) := by
  induction ps with
  | nil => intro d k; simp
  | cons p rest ih =>
    intro d k
    rw [List.foldl_cons, ih, pyDictGet_insert]
    by_cases h : k = p.1
    · simp [h]
    · have hb : (k == p.1) = false := beq_eq_false_iff_ne.mpr h
      simp [h, hb]

/-- Folded assignments do not touch keys outside the pair list. -/
theorem pyDictGet_foldl_not_mem {α : Type} (ps : List (String × α)) :
    ∀ (d : List (String × α)) (k : String), k ∉ ps.map Prod.fst →
      pyDictGet (ps.foldl (fun d p => pyDictInsert d p.1 p.2) d) k = pyDictGet d k := by
  induction ps with
  | nil => intro d k _; rfl
  | cons p rest ih =>
    intro d k h
    rw [List.foldl_cons, ih _ _ (fun hm => h (by simp [hm])),
      pyDictGet_insert, if_neg (fun he => h (by simp [he]))]

/-- With distinct keys, folding the assignments stores each pair's
value under its key. -/
theorem pyDictGet_foldl_mem_nodup {α : Type} (ps : List (String × α)) :
    ∀ (d : List (String × α)) (k : String) (v : α),
      (ps.map Prod.fst).Nodup → (k, v) ∈ ps →
      pyDictGet (ps.foldl (fun d p => pyDictInsert d p.1 p.2) d) k = some v := by
  induction ps with
  | nil => intro d k v _ hm; cases hm
  | cons p rest ih =>
    intro d k v hnd hm
    rw [List.map_cons, List.nodup_cons] at hnd
    obtain ⟨hp, hrest⟩ := hnd
    rw [List.foldl_cons]
    rcases List.mem_cons.mp hm with heq | hmem
    · cases heq
      rw [pyDictGet_foldl_not_mem rest _ _ hp, pyDictGet_insert, if_pos rfl]
    · exact ih _ _ _ hrest hmem

/-- The `i`-th key/value pair of a zip is a member of the zip. -/
theorem zip_getD_mem {α : Type} (dv : α) :
    ∀ (l1 : List String) (l2 : List α) (i : Nat), i < l1.length → i < l2.length →
      (l1.getD i "", l2.getD i dv) ∈ l1.zip l2 := by
  intro l1
  induction l1 with
  | nil => intro l2 i h1 _; simp at h1
  | cons x xs ih =>
    intro l2 i h1 h2
    cases l2 with
    | nil => simp at h2
    | cons y ys =>
      cases i with
      | zero => simp
      | succ j =>
        simp only [List.zip_cons_cons, List.getD_cons_succ, List.mem_cons]
        exact Or.inr (ih ys j (by simpa using h1) (by simpa using h2))

/-- The adjusted row always has exactly the header count of cells. -/
theorem padTruncRow_length (row : List String) (n : Nat) :
    (padTruncRow row n).length = n := by
  simp [padTruncRow]
  omega

/-- C8: `_extract_table` pads a short row with nulls and truncates a
long one, to exactly the header count; once headers parse it succeeds
on every body (no raise on mismatch); and each emitted dict carries
exactly the computed headers as keys (values positionally from the
adjusted row when headers are distinct) plus the zero-filled
`county_fips` key. -/
theorem extract_table_row_dicts :
    (∀ (row : List String) (n : Nat), row.length ≤ n →
      padTruncRow row n = row.map some ++ List.replicate (n - row.length) none) ∧
    (∀ (row : List String) (n : Nat), n ≤ row.length →
      padTruncRow row n = (row.take n).map some) ∧
    (∀ (row : List String) (n : Nat), (padTruncRow row n).length = n) ∧
    (∀ (t : TableModel) (cf : String) (headers : List String), extractHeaders t = .ok headers →
      extractTable t cf = .ok (t.body.map (fun row =>
        rowDict headers row (String.mk (zfillList 3 cf.data))))) ∧
    (∀ (headers row : List String) (county : String),
      pyDictGet (rowDict headers row county) "county_fips" = some (some county)) ∧
    (∀ (headers row : List String) (county k : String),
      (pyDictGet (rowDict headers row county) k).isSome = true ↔
        k ∈ headers ∨ k = "county_fips") ∧
    (∀ (headers row : List String) (county : String), headers.Nodup →
      ∀ i, i < headers.length → headers.getD i "" ≠ "county_fips" →
        pyDictGet (rowDict headers row county) (headers.getD i "") =
          some ((padTruncRow row headers.length).getD i none)) := by
  have hkeys : ∀ (headers row : List String),
      (headers.zip (padTruncRow row headers.length)).map Prod.fst = headers := by
    intro headers row
    exact List.map_fst_zip _ _ (le_of_eq (padTruncRow_length row headers.length).symm)
  refine ⟨?_, ?_, padTruncRow_length, ?_, ?_, ?_, ?_⟩
  · intro row n h
    unfold padTruncRow
    apply List.take_of_length_le
    simp
    omega
  · intro row n h
    unfold padTruncRow
    rw [Nat.sub_eq_zero_of_le h]
    simp [List.map_take]
  · intro t cf headers h
    simp [extractTable, h, bind, Except.bind, pure, Except.pure]
  · intro headers row county
    rw [rowDict, pyDictGet_insert, if_pos rfl]
  · intro headers row county k
    rw [rowDict, pyDictGet_insert]
    by_cases hk : k = "county_fips"
    · simp [hk]
    · rw [if_neg hk]
      rw [pyDictOfPairs, pyDictGet_foldl_isSome, hkeys]
      simp [hk, pyDictGet]
  · intro headers row county hnd i hi hne
    rw [rowDict, pyDictGet_insert, if_neg hne, pyDictOfPairs]
    apply pyDictGet_foldl_mem_nodup
    · rw [hkeys]
      exact hnd
    · exact zip_getD_mem none headers _ i hi
        (by rw [padTruncRow_length]; exact hi)

/-- Witness for C8 at the sample table with a short body row. -/
theorem extract_table_row_dicts_witness :
    extractTable sampleTable "1" =
      .ok [rowDict ["Category", "1 Adult - 0 Children"] ["food"] "001"] := by
  have h := extract_table_row_dicts.2.2.2.1 sampleTable "1"
    ["Category", "1 Adult - 0 Children"] (by decide)
  rw [h]
  decide

end WageETL
